import Mathlib

/-!
# Verification of the web3.js transaction data-model contract

Shallow embedding of `src/packages/web3-eth-accounts/src/tx/types.ts`
(capability enum, access-list shape classifiers, transaction field
schemas and value-array layout contract), together with spec-modelled
definitions for the operations whose implementations live outside the
given source file (constructors, `fromValuesArray`, `toValuesArray`,
access-list hex normalization).

Buffers are modelled as `List Nat` (byte sequences), bigints as `Nat`,
and TypeScript `T | undefined` as `Option T`.
-/

namespace Web3Tx

/-- From the source (`enum Capability`): the four transaction
capabilities, each numbered by its EIP number. -/
inductive Capability : Type
  | EIP155ReplayProtection
  | EIP1559FeeMarket
  | EIP2718TypedTransaction
  | EIP2930AccessLists
deriving DecidableEq, Repr, Fintype

/-- Numeric value of each `Capability` member, exactly as assigned in the
source enum. -/
def Capability.toNat : Capability → Nat
  | .EIP155ReplayProtection => 155
  | .EIP1559FeeMarket => 1559
  | .EIP2718TypedTransaction => 2718
  | .EIP2930AccessLists => 2930

/-- From the source: `AccessListItem` — struct-form access-list entry,
a hex-string address plus hex-string storage keys. -/
structure AccessListItem : Type where
  address : String
  storageKeys : List String
deriving DecidableEq, Repr

/-- From the source: `AccessListBufferItem` — positional-form entry, a
2-tuple of raw address bytes and raw storage-key byte sequences. -/
structure AccessListBufferItem : Type where
  addressBytes : List Nat
  storageKeyBytes : List (List Nat)
deriving DecidableEq, Repr

/-- An element of the union `AccessListBuffer | AccessList` as it can
arrive at the classifiers: either a raw tuple (a JS array, for which
`Array.isArray` is true) or a key-value record. -/
inductive AccessListAnyItem : Type
  | tuple : AccessListBufferItem → AccessListAnyItem
  | record : AccessListItem → AccessListAnyItem
deriving DecidableEq, Repr

/-- JS `Array.isArray` on an access-list element: true exactly for the
positional tuple shape. -/
def arrayIsArray : AccessListAnyItem → Bool
  | .tuple _ => true
  | .record _ => false

/-- From the source, `isAccessListBuffer`:
empty input returns `true`; otherwise the result is
`Array.isArray(input[0])`. -/
def isAccessListBuffer (input : List AccessListAnyItem) : Bool :=
  if input.length = 0 then
    true
  else
    match input with
    | [] => true
    | firstItem :: _ => if arrayIsArray firstItem then true else false

/-- From the source, `isAccessList`: the exact negation of
`isAccessListBuffer`. -/
def isAccessList (input : List AccessListAnyItem) : Bool :=
  !(isAccessListBuffer input)

/-- Error taxonomy of the contract (spec §7): validation, type-mismatch,
range, unsupported-field and decode errors. -/
inductive TxError : Type
  | ValidationError : String → TxError
  | TypeMismatchError : TxError
  | RangeError : TxError
  | UnsupportedFieldError : TxError
  | DecodeError : TxError
deriving DecidableEq, Repr

/-- Value of a single hex digit character; both lower- and upper-case
digits are accepted (`0`-`9`, `a`-`f`, `A`-`F`). -/
def hexDigitToNat (c : Char) : Option Nat :=
  if 48 ≤ c.toNat ∧ c.toNat ≤ 57 then some (c.toNat - 48)
  else if 97 ≤ c.toNat ∧ c.toNat ≤ 102 then some (c.toNat - 97 + 10)
  else if 65 ≤ c.toNat ∧ c.toNat ≤ 70 then some (c.toNat - 65 + 10)
  else none

/-- Lower-case hex digit character for a value `< 16`. -/
def natToLowerHexDigit (n : Nat) : Char :=
  if n < 10 then Char.ofNat (48 + n) else Char.ofNat (87 + n)

/-- Decode a run of hex digit characters into bytes, two digits per
byte; fails on an odd count or a non-hex character. -/
def hexCharsToBytes : List Char → Option (List Nat)
  | [] => some []
  | [_] => none
  | c1 :: c2 :: rest =>
    match hexDigitToNat c1, hexDigitToNat c2, hexCharsToBytes rest with
    | some hi, some lo, some bs => some ((16 * hi + lo) :: bs)
    | _, _, _ => none

/-- Encode bytes as lower-case hex digit characters, two per byte. -/
def bytesToLowerHexChars : List Nat → List Char
  | [] => []
  | b :: bs =>
    natToLowerHexDigit (b / 16) :: natToLowerHexDigit (b % 16) :: bytesToLowerHexChars bs

/-- Modelled from the spec: hex-decode a `"0x"`-prefixed hex string into
raw bytes (the decoding step of `toPositionalForm`, implemented outside
the given source file); fails on a missing prefix or malformed hex. -/
def parseHexString (s : String) : Option (List Nat) :=
  match s.data with
  | '0' :: 'x' :: rest => hexCharsToBytes rest
  | _ => none

/-- Modelled from the spec: re-encode raw bytes as a lower-case
`"0x"`-prefixed hex string (the encoding step of `toStructForm`). -/
def bytesToHexString (bs : List Nat) : String :=
  String.mk ('0' :: 'x' :: bytesToLowerHexChars bs)

/-- Hex case normalization: map upper-case letters to lower-case,
leaving every other character unchanged. -/
def normalizeHexChar (c : Char) : Char :=
  if 65 ≤ c.toNat ∧ c.toNat ≤ 90 then Char.ofNat (c.toNat + 32) else c

/-- Hex case normalization of a whole string. -/
def normalizeHexString (s : String) : String :=
  String.mk (s.data.map normalizeHexChar)

/-- Hex-decode a string and validate the decoded byte length. -/
def decodeFixed (s : String) (len : Nat) : Except TxError (List Nat) :=
  match parseHexString s with
  | none => .error (.ValidationError "malformed hex")
  | some bs =>
    if bs.length = len then .ok bs
    else .error (.ValidationError "length mismatch")

/-- Modelled from the spec: hex-decode and validate the storage keys of
one struct-form entry, each exactly 32 bytes. -/
def decodeStorageKeys : List String → Except TxError (List (List Nat))
  | [] => .ok []
  | k :: ks =>
    match decodeFixed k 32 with
    | .error e => .error e
    | .ok kb =>
      match decodeStorageKeys ks with
      | .error e => .error e
      | .ok rest => .ok (kb :: rest)

/-- Modelled from the spec: convert one struct-form entry to positional
form, validating the address is exactly 20 bytes. -/
def toPositionalItem (it : AccessListItem) : Except TxError AccessListBufferItem :=
  match decodeFixed it.address 20 with
  | .error e => .error e
  | .ok addr =>
    match decodeStorageKeys it.storageKeys with
    | .error e => .error e
    | .ok keys => .ok ⟨addr, keys⟩

/-- Modelled from the spec: `toPositionalForm` — validating, order
preserving conversion of a struct-form access list to positional form
(implemented outside the given source file). -/
def toPositionalForm : List AccessListItem → Except TxError (List AccessListBufferItem)
  | [] => .ok []
  | it :: rest =>
    match toPositionalItem it with
    | .error e => .error e
    | .ok b =>
      match toPositionalForm rest with
      | .error e => .error e
      | .ok bs => .ok (b :: bs)

/-- Convert one positional-form entry back to struct form, re-encoding
bytes as lower-case `"0x"`-prefixed hex. -/
def toStructItem (b : AccessListBufferItem) : AccessListItem :=
  ⟨bytesToHexString b.addressBytes, b.storageKeyBytes.map bytesToHexString⟩

/-- Modelled from the spec: `toStructForm` — inverse conversion of
`toPositionalForm`; always succeeds on well-typed positional input. -/
def toStructForm (bs : List AccessListBufferItem) : List AccessListItem :=
  bs.map toStructItem

/-- Hex case normalization of a struct-form entry. -/
def normalizeItem (it : AccessListItem) : AccessListItem :=
  ⟨normalizeHexString it.address, it.storageKeys.map normalizeHexString⟩

/-- A JS optional field value distinguishing `undefined` (absent),
`null`, and a present value. -/
inductive JsOpt (α : Type) : Type
  | undefined
  | null
  | val : α → JsOpt α
deriving DecidableEq, Repr

/-- One element of a value array handed to/from the binary codec:
raw bytes or the nested positional access list. -/
inductive TxValue : Type
  | bytes : List Nat → TxValue
  | accessList : List AccessListBufferItem → TxValue
deriving DecidableEq, Repr

/-- Modelled from the spec: a constructed Legacy transaction instance
(`Transaction`, implemented outside the given source file); numeric and
byte fields are kept in canonical byte form, the signature fields are
optional. -/
structure LegacyTx : Type where
  nonce : List Nat
  gasPrice : List Nat
  gasLimit : List Nat
  «to» : List Nat
  value : List Nat
  data : List Nat
  v : Option (List Nat)
  r : Option (List Nat)
  s : Option (List Nat)
deriving DecidableEq, Repr

/-- Modelled from the spec: `isSigned()` — true iff all three signature
fields are present. -/
def LegacyTx.isSigned (tx : LegacyTx) : Bool :=
  match tx.v, tx.r, tx.s with
  | some _, some _, some _ => true
  | _, _, _ => false

/-- Modelled from the spec: Legacy `toValuesArray()` — the layout
[nonce, gasPrice, gasLimit, to, value, data] with [v, r, s] appended
exactly when signed, omitted entirely when unsigned. -/
def LegacyTx.toValuesArray (tx : LegacyTx) : List TxValue :=
  [.bytes tx.nonce, .bytes tx.gasPrice, .bytes tx.gasLimit, .bytes tx.«to»,
   .bytes tx.value, .bytes tx.data] ++
  (match tx.v, tx.r, tx.s with
   | some v, some r, some s => [.bytes v, .bytes r, .bytes s]
   | _, _, _ => [])

/-- Modelled from the spec: loose constructor input for a Legacy
transaction; only the presence structure of the signature fields
matters here, field values already in canonical byte form. -/
structure LegacyTxData : Type where
  nonce : List Nat
  gasPrice : List Nat
  gasLimit : List Nat
  «to» : List Nat
  value : List Nat
  data : List Nat
  v : Option (List Nat)
  r : Option (List Nat)
  s : Option (List Nat)
deriving DecidableEq, Repr

/-- Modelled from the spec: the Legacy constructor (`fromTxData`) —
rejects an inconsistent partial signature (a strict subset of
{v, r, s}) with a ValidationError. -/
def LegacyTx.fromTxData (d : LegacyTxData) : Except TxError LegacyTx :=
  match d.v, d.r, d.s with
  | none, none, none =>
    .ok ⟨d.nonce, d.gasPrice, d.gasLimit, d.«to», d.value, d.data, none, none, none⟩
  | some v, some r, some s =>
    .ok ⟨d.nonce, d.gasPrice, d.gasLimit, d.«to», d.value, d.data, some v, some r, some s⟩
  | _, _, _ => .error (.ValidationError "partial signature")

/-- Modelled from the spec: a constructed AccessList (EIP-2930)
transaction instance. -/
structure AccessList2930Tx : Type where
  chainId : List Nat
  nonce : List Nat
  gasPrice : List Nat
  gasLimit : List Nat
  «to» : List Nat
  value : List Nat
  data : List Nat
  accessList : List AccessListBufferItem
  v : Option (List Nat)
  r : Option (List Nat)
  s : Option (List Nat)
deriving DecidableEq, Repr

/-- Modelled from the spec: `isSigned()` for the AccessList variant. -/
def AccessList2930Tx.isSigned (tx : AccessList2930Tx) : Bool :=
  match tx.v, tx.r, tx.s with
  | some _, some _, some _ => true
  | _, _, _ => false

/-- Modelled from the spec: AccessList `toValuesArray()` — the layout
[chainId, nonce, gasPrice, gasLimit, to, value, data, accessList] with
[v, r, s] appended exactly when signed. -/
def AccessList2930Tx.toValuesArray (tx : AccessList2930Tx) : List TxValue :=
  [.bytes tx.chainId, .bytes tx.nonce, .bytes tx.gasPrice, .bytes tx.gasLimit,
   .bytes tx.«to», .bytes tx.value, .bytes tx.data, .accessList tx.accessList] ++
  (match tx.v, tx.r, tx.s with
   | some v, some r, some s => [.bytes v, .bytes r, .bytes s]
   | _, _, _ => [])

/-- Modelled from the spec: loose constructor input for the AccessList
variant. -/
structure AccessList2930TxData : Type where
  chainId : List Nat
  nonce : List Nat
  gasPrice : List Nat
  gasLimit : List Nat
  «to» : List Nat
  value : List Nat
  data : List Nat
  accessList : List AccessListBufferItem
  v : Option (List Nat)
  r : Option (List Nat)
  s : Option (List Nat)
deriving DecidableEq, Repr

/-- Modelled from the spec: the AccessList-variant constructor —
rejects a partial signature with a ValidationError. -/
def AccessList2930Tx.fromTxData (d : AccessList2930TxData) :
    Except TxError AccessList2930Tx :=
  match d.v, d.r, d.s with
  | none, none, none =>
    .ok ⟨d.chainId, d.nonce, d.gasPrice, d.gasLimit, d.«to», d.value, d.data,
         d.accessList, none, none, none⟩
  | some v, some r, some s =>
    .ok ⟨d.chainId, d.nonce, d.gasPrice, d.gasLimit, d.«to», d.value, d.data,
         d.accessList, some v, some r, some s⟩
  | _, _, _ => .error (.ValidationError "partial signature")

/-- Modelled from the spec: AccessList `fromValuesArray` — validates the
array length is 8 or 11, failing with a DecodeError otherwise, then
destructures the fixed positional layout. -/
def AccessList2930Tx.fromValuesArray (values : List TxValue) :
    Except TxError AccessList2930Tx :=
  if values.length = 8 ∨ values.length = 11 then
    match values with
    | [.bytes chainId, .bytes nonce, .bytes gasPrice, .bytes gasLimit, .bytes «to»,
       .bytes value, .bytes data, .accessList al] =>
      .ok ⟨chainId, nonce, gasPrice, gasLimit, «to», value, data, al, none, none, none⟩
    | [.bytes chainId, .bytes nonce, .bytes gasPrice, .bytes gasLimit, .bytes «to»,
       .bytes value, .bytes data, .accessList al, .bytes v, .bytes r, .bytes s] =>
      .ok ⟨chainId, nonce, gasPrice, gasLimit, «to», value, data, al,
           some v, some r, some s⟩
    | _ => .error .TypeMismatchError
  else .error .DecodeError

/-- Modelled from the spec: a constructed FeeMarket (EIP-1559)
transaction instance; gasPrice does not exist on the instance,
maxPriorityFeePerGas and maxFeePerGas replace it. -/
structure FeeMarket1559Tx : Type where
  chainId : List Nat
  nonce : List Nat
  maxPriorityFeePerGas : List Nat
  maxFeePerGas : List Nat
  gasLimit : List Nat
  «to» : List Nat
  value : List Nat
  data : List Nat
  accessList : List AccessListBufferItem
  v : Option (List Nat)
  r : Option (List Nat)
  s : Option (List Nat)
deriving DecidableEq, Repr

/-- Modelled from the spec: `isSigned()` for the FeeMarket variant. -/
def FeeMarket1559Tx.isSigned (tx : FeeMarket1559Tx) : Bool :=
  match tx.v, tx.r, tx.s with
  | some _, some _, some _ => true
  | _, _, _ => false

/-- Modelled from the spec: FeeMarket `toValuesArray()` — the layout
[chainId, nonce, maxPriorityFeePerGas, maxFeePerGas, gasLimit, to,
value, data, accessList] with [v, r, s] appended exactly when signed. -/
def FeeMarket1559Tx.toValuesArray (tx : FeeMarket1559Tx) : List TxValue :=
  [.bytes tx.chainId, .bytes tx.nonce, .bytes tx.maxPriorityFeePerGas,
   .bytes tx.maxFeePerGas, .bytes tx.gasLimit, .bytes tx.«to», .bytes tx.value,
   .bytes tx.data, .accessList tx.accessList] ++
  (match tx.v, tx.r, tx.s with
   | some v, some r, some s => [.bytes v, .bytes r, .bytes s]
   | _, _, _ => [])

/-- Modelled from the spec: loose constructor input for the FeeMarket
variant; `gasPrice` can be absent (`undefined`), `null`, or populated. -/
structure FeeMarket1559TxData : Type where
  chainId : List Nat
  nonce : List Nat
  maxPriorityFeePerGas : List Nat
  maxFeePerGas : List Nat
  gasLimit : List Nat
  «to» : List Nat
  value : List Nat
  data : List Nat
  gasPrice : JsOpt (List Nat)
  accessList : List AccessListBufferItem
  v : Option (List Nat)
  r : Option (List Nat)
  s : Option (List Nat)
deriving DecidableEq, Repr

/-- Modelled from the spec: the FeeMarket constructor — rejects a
populated `gasPrice` with an UnsupportedFieldError (absent or null is
accepted), and rejects a partial signature with a ValidationError. -/
def FeeMarket1559Tx.fromTxData (d : FeeMarket1559TxData) :
    Except TxError FeeMarket1559Tx :=
  match d.gasPrice with
  | .val _ => .error .UnsupportedFieldError
  | _ =>
    match d.v, d.r, d.s with
    | none, none, none =>
      .ok ⟨d.chainId, d.nonce, d.maxPriorityFeePerGas, d.maxFeePerGas, d.gasLimit,
           d.«to», d.value, d.data, d.accessList, none, none, none⟩
    | some v, some r, some s =>
      .ok ⟨d.chainId, d.nonce, d.maxPriorityFeePerGas, d.maxFeePerGas, d.gasLimit,
           d.«to», d.value, d.data, d.accessList, some v, some r, some s⟩
    | _, _, _ => .error (.ValidationError "partial signature")

/-- Modelled from the spec: FeeMarket `fromValuesArray` — validates the
array length is 9 or 12, failing with a DecodeError otherwise, then
destructures the fixed positional layout. -/
def FeeMarket1559Tx.fromValuesArray (values : List TxValue) :
    Except TxError FeeMarket1559Tx :=
  if values.length = 9 ∨ values.length = 12 then
    match values with
    | [.bytes chainId, .bytes nonce, .bytes maxPriorityFeePerGas, .bytes maxFeePerGas,
       .bytes gasLimit, .bytes «to», .bytes value, .bytes data, .accessList al] =>
      .ok ⟨chainId, nonce, maxPriorityFeePerGas, maxFeePerGas, gasLimit, «to», value,
           data, al, none, none, none⟩
    | [.bytes chainId, .bytes nonce, .bytes maxPriorityFeePerGas, .bytes maxFeePerGas,
       .bytes gasLimit, .bytes «to», .bytes value, .bytes data, .accessList al,
       .bytes v, .bytes r, .bytes s] =>
      .ok ⟨chainId, nonce, maxPriorityFeePerGas, maxFeePerGas, gasLimit, «to», value,
           data, al, some v, some r, some s⟩
    | _ => .error .TypeMismatchError
  else .error .DecodeError

end Web3Tx

namespace Web3Tx

/-- A successfully decoded hex digit is below 16 and re-encodes, in
lower case, to the case-normalized original character. -/
theorem natToLowerHexDigit_hexDigitToNat {c : Char} {n : Nat}
    (h : hexDigitToNat c = some n) :
    n < 16 ∧ natToLowerHexDigit n = normalizeHexChar c := by
  unfold hexDigitToNat at h
  split_ifs at h with h1 h2 h3 <;> injection h with h
  · subst h
    refine ⟨by omega, ?_⟩
    unfold natToLowerHexDigit normalizeHexChar
    rw [if_pos (by omega), if_neg (by omega)]
    have : 48 + (c.toNat - 48) = c.toNat := by omega
    rw [this, Char.ofNat_toNat]
  · subst h
    refine ⟨by omega, ?_⟩
    unfold natToLowerHexDigit normalizeHexChar
    rw [if_neg (by omega), if_neg (by omega)]
    have : 87 + (c.toNat - 97 + 10) = c.toNat := by omega
    rw [this, Char.ofNat_toNat]
  · subst h
    refine ⟨by omega, ?_⟩
    unfold natToLowerHexDigit normalizeHexChar
    rw [if_neg (by omega), if_pos (by omega)]
    have : 87 + (c.toNat - 65 + 10) = c.toNat + 32 := by omega
    rw [this]

/-- Decoded hex character runs re-encode to the case-normalized
original run. -/
theorem bytesToLowerHexChars_hexCharsToBytes :
    ∀ {cs : List Char} {bs : List Nat}, hexCharsToBytes cs = some bs →
      bytesToLowerHexChars bs = cs.map normalizeHexChar
  | [], bs, h => by
    simp only [hexCharsToBytes, Option.some.injEq] at h
    subst h
    rfl
  | [c], bs, h => by
    simp [hexCharsToBytes] at h
  | c1 :: c2 :: rest, bs, h => by
    unfold hexCharsToBytes at h
    cases h1 : hexDigitToNat c1 with
    | none => rw [h1] at h; simp at h
    | some hi =>
      cases h2 : hexDigitToNat c2 with
      | none => rw [h1, h2] at h; simp at h
      | some lo =>
        cases h3 : hexCharsToBytes rest with
        | none => rw [h1, h2, h3] at h; simp at h
        | some tail =>
          rw [h1, h2, h3] at h
          simp only [Option.some.injEq] at h
          subst h
          obtain ⟨hhi, ehi⟩ := natToLowerHexDigit_hexDigitToNat h1
          obtain ⟨hlo, elo⟩ := natToLowerHexDigit_hexDigitToNat h2
          have ih := bytesToLowerHexChars_hexCharsToBytes h3
          unfold bytesToLowerHexChars
          have hdiv : (16 * hi + lo) / 16 = hi := by omega
          have hmod : (16 * hi + lo) % 16 = lo := by omega
          rw [hdiv, hmod, ehi, elo, ih]
          simp

/-- A string accepted by `decodeFixed` re-encodes to its own
case-normalized form. -/
theorem bytesToHexString_decodeFixed {s : String} {len : Nat} {bs : List Nat}
    (h : decodeFixed s len = .ok bs) :
    bytesToHexString bs = normalizeHexString s := by
  unfold decodeFixed at h
  split at h
  · exact absurd h (by simp)
  · next bs' hp =>
    split_ifs at h with hl
    injection h with h
    subst h
    unfold parseHexString at hp
    split at hp
    · next rest hs =>
      have hrt := bytesToLowerHexChars_hexCharsToBytes hp
      unfold bytesToHexString normalizeHexString
      rw [hs, hrt]
      simp only [List.map_cons]
      have h0 : normalizeHexChar '0' = '0' := by decide
      have hx : normalizeHexChar 'x' = 'x' := by decide
      rw [h0, hx]
    · exact absurd hp (by simp)

/-- Decoded storage keys re-encode to the case-normalized originals. -/
theorem decodeStorageKeys_roundtrip :
    ∀ {ks : List String} {kbs : List (List Nat)},
      decodeStorageKeys ks = .ok kbs →
      kbs.map bytesToHexString = ks.map normalizeHexString
  | [], kbs, h => by
    simp only [decodeStorageKeys, Except.ok.injEq] at h
    subst h
    rfl
  | k :: ks, kbs, h => by
    unfold decodeStorageKeys at h
    split at h
    · exact absurd h (by simp)
    · next kb h1 =>
      split at h
      · exact absurd h (by simp)
      · next rest h2 =>
        injection h with h
        subst h
        simp only [List.map_cons]
        rw [bytesToHexString_decodeFixed h1, decodeStorageKeys_roundtrip h2]

/-- One converted entry converts back to the case-normalized original
entry. -/
theorem toStructItem_toPositionalItem {it : AccessListItem} {b : AccessListBufferItem}
    (h : toPositionalItem it = .ok b) :
    toStructItem b = normalizeItem it := by
  unfold toPositionalItem at h
  split at h
  · exact absurd h (by simp)
  · next addr h1 =>
    split at h
    · exact absurd h (by simp)
    · next keys h2 =>
      injection h with h
      subst h
      unfold toStructItem normalizeItem
      simp only
      rw [bytesToHexString_decodeFixed h1, decodeStorageKeys_roundtrip h2]

/-- The list-level round trip underlying C2. -/
theorem toStructForm_toPositionalForm :
    ∀ {x : List AccessListItem} {y : List AccessListBufferItem},
      toPositionalForm x = .ok y → toStructForm y = x.map normalizeItem
  | [], y, h => by
    simp only [toPositionalForm, Except.ok.injEq] at h
    subst h
    rfl
  | it :: rest, y, h => by
    unfold toPositionalForm at h
    split at h
    · exact absurd h (by simp)
    · next b h1 =>
      split at h
      · exact absurd h (by simp)
      · next bs h2 =>
        injection h with h
        subst h
        simp only [toStructForm, List.map_cons]
        have e1 := toStructItem_toPositionalItem h1
        have e2 := toStructForm_toPositionalForm h2
        unfold toStructForm at e2
        rw [e1, e2]

/-- C9: the capability model has exactly the four members (replay
protection, fee market, typed envelope, access lists), they are pairwise
distinct, and each carries its EIP number (155, 1559, 2718, 2930). -/
theorem capability_model_four_distinct_eip_numbered :
    (∀ c : Capability,
      c = .EIP155ReplayProtection ∨ c = .EIP1559FeeMarket ∨
      c = .EIP2718TypedTransaction ∨ c = .EIP2930AccessLists) ∧
    Fintype.card Capability = 4 ∧
    Capability.toNat .EIP155ReplayProtection = 155 ∧
    Capability.toNat .EIP1559FeeMarket = 1559 ∧
    Capability.toNat .EIP2718TypedTransaction = 2718 ∧
    Capability.toNat .EIP2930AccessLists = 2930 ∧
    (∀ c₁ c₂ : Capability, Capability.toNat c₁ = Capability.toNat c₂ → c₁ = c₂) := by
  refine ⟨?_, ?_, rfl, rfl, rfl, rfl, ?_⟩
  · intro c; cases c <;> simp
  · decide
  · intro c₁ c₂; cases c₁ <;> cases c₂ <;> decide

/-- C3: the shape classifier applies the fixed convention that the empty
access list is positional-form: `isAccessListBuffer` returns `true` on
it, hence `isAccessList` returns `false`. -/
theorem empty_access_list_classified_positional :
    isAccessListBuffer [] = true ∧ isAccessList [] = false := by
  constructor <;> rfl

/-- C4: on every non-empty input the classifier is decided by
`Array.isArray` applied to the first element; in particular a list of
raw tuples classifies as positional-form and a list of key-value records
classifies as struct-form. -/
theorem nonempty_classification_by_first_element
    (x : AccessListAnyItem) (xs : List AccessListAnyItem) :
    isAccessListBuffer (x :: xs) = arrayIsArray x ∧
    isAccessList (x :: xs) = !(arrayIsArray x) ∧
    ((∀ y ∈ x :: xs, arrayIsArray y = true) →
      isAccessListBuffer (x :: xs) = true) ∧
    ((∀ y ∈ x :: xs, arrayIsArray y = false) →
      isAccessList (x :: xs) = true) := by
  refine ⟨?_, ?_, ?_, ?_⟩
  · cases x <;> simp [isAccessListBuffer, arrayIsArray]
  · cases x <;> simp [isAccessList, isAccessListBuffer, arrayIsArray]
  · intro h
    cases x <;> simp_all [isAccessListBuffer, arrayIsArray]
  · intro h
    cases x <;> simp_all [isAccessList, isAccessListBuffer, arrayIsArray]

/-- Witness for C4 at concrete inputs: a singleton tuple list and a
singleton record list. -/
theorem nonempty_classification_by_first_element_witness :
    isAccessListBuffer [.tuple ⟨[], []⟩] = true ∧
    isAccessList [.record ⟨"0x", []⟩] = true := by
  refine ⟨?_, ?_⟩
  · exact (nonempty_classification_by_first_element (.tuple ⟨[], []⟩) []).2.2.1
      (by intro y hy; simp at hy; subst hy; rfl)
  · exact (nonempty_classification_by_first_element (.record ⟨"0x", []⟩) []).2.2.2
      (by intro y hy; simp at hy; subst hy; rfl)

/-- C2: for every well-formed non-empty struct-form access list,
converting to positional form and back is the identity up to hex case
normalization: `toStructForm (toPositionalForm x) = x` case-normalized. -/
theorem struct_positional_roundtrip (x : List AccessListItem)
    (y : List AccessListBufferItem) (_hne : x ≠ [])
    (h : toPositionalForm x = Except.ok y) :
    toStructForm y = x.map normalizeItem :=
  toStructForm_toPositionalForm h

/-- Witness for C2 at a concrete one-entry access list with a mixed-case
address and one storage key. -/
theorem struct_positional_roundtrip_witness :
    ([(⟨"0x00112233445566778899AABBCCDDEEFF00112233",
        ["0x0000000000000000000000000000000000000000000000000000000000000001"]⟩ :
        AccessListItem)] ≠ []) ∧
    toStructForm
        [⟨[0, 17, 34, 51, 68, 85, 102, 119, 136, 153, 170, 187, 204, 221,
           238, 255, 0, 17, 34, 51],
          [List.replicate 31 0 ++ [1]]⟩] =
      List.map normalizeItem
        [⟨"0x00112233445566778899AABBCCDDEEFF00112233",
          ["0x0000000000000000000000000000000000000000000000000000000000000001"]⟩] := by
  refine ⟨by simp, ?_⟩
  exact struct_positional_roundtrip _ _ (by simp) (by rfl)

/-- C1: each typed variant's value array keeps its fixed positional
layout — AccessList [chainId, nonce, gasPrice, gasLimit, to, value,
data, accessList], FeeMarket [chainId, nonce, maxPriorityFeePerGas,
maxFeePerGas, gasLimit, to, value, data, accessList] — with the three
signature positions appended exactly when signed (length 8 or 11,
respectively 9 or 12), and `fromValuesArray` fails with a DecodeError on
every other length. -/
theorem typed_variant_values_array_contract :
    (∀ tx : AccessList2930Tx,
      tx.toValuesArray.take 8 =
        [.bytes tx.chainId, .bytes tx.nonce, .bytes tx.gasPrice,
         .bytes tx.gasLimit, .bytes tx.«to», .bytes tx.value, .bytes tx.data,
         .accessList tx.accessList] ∧
      tx.toValuesArray.length = (if tx.isSigned then 11 else 8)) ∧
    (∀ tx : FeeMarket1559Tx,
      tx.toValuesArray.take 9 =
        [.bytes tx.chainId, .bytes tx.nonce, .bytes tx.maxPriorityFeePerGas,
         .bytes tx.maxFeePerGas, .bytes tx.gasLimit, .bytes tx.«to»,
         .bytes tx.value, .bytes tx.data, .accessList tx.accessList] ∧
      tx.toValuesArray.length = (if tx.isSigned then 12 else 9)) ∧
    (∀ values : List TxValue, values.length ≠ 8 → values.length ≠ 11 →
      AccessList2930Tx.fromValuesArray values = .error .DecodeError) ∧
    (∀ values : List TxValue, values.length ≠ 9 → values.length ≠ 12 →
      FeeMarket1559Tx.fromValuesArray values = .error .DecodeError) := by
  refine ⟨?_, ?_, ?_, ?_⟩
  · intro tx
    cases hv : tx.v <;> cases hr : tx.r <;> cases hs : tx.s <;>
      simp [AccessList2930Tx.toValuesArray, AccessList2930Tx.isSigned, hv, hr, hs]
  · intro tx
    cases hv : tx.v <;> cases hr : tx.r <;> cases hs : tx.s <;>
      simp [FeeMarket1559Tx.toValuesArray, FeeMarket1559Tx.isSigned, hv, hr, hs]
  · intro values h8 h11
    simp [AccessList2930Tx.fromValuesArray, h8, h11]
  · intro values h9 h12
    simp [FeeMarket1559Tx.fromValuesArray, h9, h12]

/-- Witness for C1: decoding a length-10 array fails with a DecodeError
for both typed variants. -/
theorem typed_variant_values_array_contract_witness :
    AccessList2930Tx.fromValuesArray (List.replicate 10 (.bytes [])) =
      .error .DecodeError ∧
    FeeMarket1559Tx.fromValuesArray (List.replicate 10 (.bytes [])) =
      .error .DecodeError :=
  ⟨typed_variant_values_array_contract.2.2.1 _ (by decide) (by decide),
   typed_variant_values_array_contract.2.2.2 _ (by decide) (by decide)⟩

/-- C5: constructing a FeeMarket instance with gasPrice populated fails
with an UnsupportedFieldError; with gasPrice absent or null the
constructor never raises that error. -/
theorem feeMarket_gasPrice_unsupported :
    (∀ (d : FeeMarket1559TxData) (g : List Nat), d.gasPrice = .val g →
      FeeMarket1559Tx.fromTxData d = .error .UnsupportedFieldError) ∧
    (∀ d : FeeMarket1559TxData, d.gasPrice = .undefined ∨ d.gasPrice = .null →
      FeeMarket1559Tx.fromTxData d ≠ .error .UnsupportedFieldError) := by
  constructor
  · intro d g hg
    simp [FeeMarket1559Tx.fromTxData, hg]
  · intro d hg
    cases dv : d.v <;> cases dr : d.r <;> cases ds : d.s <;>
      rcases hg with hg | hg <;>
        simp [FeeMarket1559Tx.fromTxData, hg, dv, dr, ds]

/-- Witness for C5: a concrete input with gasPrice populated is
rejected with an UnsupportedFieldError, one with gasPrice null is not. -/
theorem feeMarket_gasPrice_unsupported_witness :
    FeeMarket1559Tx.fromTxData
        ⟨[], [], [], [], [], [], [], [], .val [1], [], none, none, none⟩ =
      .error .UnsupportedFieldError ∧
    FeeMarket1559Tx.fromTxData
        ⟨[], [], [], [], [], [], [], [], .null, [], none, none, none⟩ ≠
      .error .UnsupportedFieldError :=
  ⟨feeMarket_gasPrice_unsupported.1 _ [1] rfl,
   feeMarket_gasPrice_unsupported.2 _ (Or.inr rfl)⟩

/-- C6: for every variant a constructed instance has the signature
triple all-present or all-absent, and supplying a strict non-empty
subset of {v, r, s} at construction fails with a ValidationError (for
the FeeMarket variant, on inputs whose gasPrice is not populated, since
that error takes precedence). -/
theorem signature_all_or_none :
    (∀ d : LegacyTxData,
      (d.v.isSome = true ∨ d.r.isSome = true ∨ d.s.isSome = true) →
      ¬(d.v.isSome = true ∧ d.r.isSome = true ∧ d.s.isSome = true) →
      LegacyTx.fromTxData d = .error (.ValidationError "partial signature")) ∧
    (∀ (d : LegacyTxData) (tx : LegacyTx), LegacyTx.fromTxData d = .ok tx →
      (tx.v.isSome = true ∧ tx.r.isSome = true ∧ tx.s.isSome = true) ∨
      (tx.v = none ∧ tx.r = none ∧ tx.s = none)) ∧
    (∀ d : AccessList2930TxData,
      (d.v.isSome = true ∨ d.r.isSome = true ∨ d.s.isSome = true) →
      ¬(d.v.isSome = true ∧ d.r.isSome = true ∧ d.s.isSome = true) →
      AccessList2930Tx.fromTxData d = .error (.ValidationError "partial signature")) ∧
    (∀ (d : AccessList2930TxData) (tx : AccessList2930Tx),
      AccessList2930Tx.fromTxData d = .ok tx →
      (tx.v.isSome = true ∧ tx.r.isSome = true ∧ tx.s.isSome = true) ∨
      (tx.v = none ∧ tx.r = none ∧ tx.s = none)) ∧
    (∀ d : FeeMarket1559TxData,
      (d.gasPrice = .undefined ∨ d.gasPrice = .null) →
      (d.v.isSome = true ∨ d.r.isSome = true ∨ d.s.isSome = true) →
      ¬(d.v.isSome = true ∧ d.r.isSome = true ∧ d.s.isSome = true) →
      FeeMarket1559Tx.fromTxData d = .error (.ValidationError "partial signature")) ∧
    (∀ (d : FeeMarket1559TxData) (tx : FeeMarket1559Tx),
      FeeMarket1559Tx.fromTxData d = .ok tx →
      (tx.v.isSome = true ∧ tx.r.isSome = true ∧ tx.s.isSome = true) ∨
      (tx.v = none ∧ tx.r = none ∧ tx.s = none)) := by
  refine ⟨?_, ?_, ?_, ?_, ?_, ?_⟩
  · intro d h1 h2
    cases dv : d.v <;> cases dr : d.r <;> cases ds : d.s <;>
      simp_all [LegacyTx.fromTxData]
  · intro d tx h
    cases dv : d.v <;> cases dr : d.r <;> cases ds : d.s <;>
      simp_all [LegacyTx.fromTxData]
    all_goals subst h
    all_goals simp
  · intro d h1 h2
    cases dv : d.v <;> cases dr : d.r <;> cases ds : d.s <;>
      simp_all [AccessList2930Tx.fromTxData]
  · intro d tx h
    cases dv : d.v <;> cases dr : d.r <;> cases ds : d.s <;>
      simp_all [AccessList2930Tx.fromTxData]
    all_goals subst h
    all_goals simp
  · intro d hg h1 h2
    cases dv : d.v <;> cases dr : d.r <;> cases ds : d.s <;>
      rcases hg with hg | hg <;>
        simp_all [FeeMarket1559Tx.fromTxData]
  · intro d tx h
    cases dg : d.gasPrice <;>
      cases dv : d.v <;> cases dr : d.r <;> cases ds : d.s <;>
        simp_all [FeeMarket1559Tx.fromTxData]
    all_goals subst h
    all_goals simp

/-- Witness for C6: a Legacy input with only v present is rejected; a
fully signed Legacy input constructs an instance whose triple is
all-present. -/
theorem signature_all_or_none_witness :
    LegacyTx.fromTxData ⟨[], [], [], [], [], [], some [1], none, none⟩ =
      .error (.ValidationError "partial signature") ∧
    (((⟨[], [], [], [], [], [], some [1], some [2], some [3]⟩ :
        LegacyTx).v.isSome = true ∧
      (⟨[], [], [], [], [], [], some [1], some [2], some [3]⟩ :
        LegacyTx).r.isSome = true ∧
      (⟨[], [], [], [], [], [], some [1], some [2], some [3]⟩ :
        LegacyTx).s.isSome = true) ∨
    ((⟨[], [], [], [], [], [], some [1], some [2], some [3]⟩ :
        LegacyTx).v = none ∧
      (⟨[], [], [], [], [], [], some [1], some [2], some [3]⟩ :
        LegacyTx).r = none ∧
      (⟨[], [], [], [], [], [], some [1], some [2], some [3]⟩ :
        LegacyTx).s = none)) := by
  constructor
  · exact signature_all_or_none.1
      ⟨[], [], [], [], [], [], some [1], none, none⟩ (by simp) (by simp)
  · exact signature_all_or_none.2.1
      ⟨[], [], [], [], [], [], some [1], some [2], some [3]⟩ _ rfl

/-- C7: `isSigned()` is true iff all three signature fields are present,
and the value array carries the trailing [v, r, s] positions exactly
when signed — omitted entirely (not null-padded) when unsigned — for
every variant. -/
theorem isSigned_controls_signature_suffix :
    (∀ tx : FeeMarket1559Tx,
      (tx.isSigned = true ↔
        tx.v.isSome = true ∧ tx.r.isSome = true ∧ tx.s.isSome = true) ∧
      (tx.isSigned = false →
        tx.toValuesArray =
          [.bytes tx.chainId, .bytes tx.nonce, .bytes tx.maxPriorityFeePerGas,
           .bytes tx.maxFeePerGas, .bytes tx.gasLimit, .bytes tx.«to»,
           .bytes tx.value, .bytes tx.data, .accessList tx.accessList]) ∧
      (∀ v r s, tx.v = some v → tx.r = some r → tx.s = some s →
        tx.toValuesArray =
          [.bytes tx.chainId, .bytes tx.nonce, .bytes tx.maxPriorityFeePerGas,
           .bytes tx.maxFeePerGas, .bytes tx.gasLimit, .bytes tx.«to»,
           .bytes tx.value, .bytes tx.data, .accessList tx.accessList,
           .bytes v, .bytes r, .bytes s])) ∧
    (∀ tx : AccessList2930Tx,
      (tx.isSigned = true ↔
        tx.v.isSome = true ∧ tx.r.isSome = true ∧ tx.s.isSome = true) ∧
      (tx.isSigned = false →
        tx.toValuesArray =
          [.bytes tx.chainId, .bytes tx.nonce, .bytes tx.gasPrice,
           .bytes tx.gasLimit, .bytes tx.«to», .bytes tx.value, .bytes tx.data,
           .accessList tx.accessList]) ∧
      (∀ v r s, tx.v = some v → tx.r = some r → tx.s = some s →
        tx.toValuesArray =
          [.bytes tx.chainId, .bytes tx.nonce, .bytes tx.gasPrice,
           .bytes tx.gasLimit, .bytes tx.«to», .bytes tx.value, .bytes tx.data,
           .accessList tx.accessList, .bytes v, .bytes r, .bytes s])) ∧
    (∀ tx : LegacyTx,
      (tx.isSigned = true ↔
        tx.v.isSome = true ∧ tx.r.isSome = true ∧ tx.s.isSome = true) ∧
      (tx.isSigned = false →
        tx.toValuesArray =
          [.bytes tx.nonce, .bytes tx.gasPrice, .bytes tx.gasLimit,
           .bytes tx.«to», .bytes tx.value, .bytes tx.data]) ∧
      (∀ v r s, tx.v = some v → tx.r = some r → tx.s = some s →
        tx.toValuesArray =
          [.bytes tx.nonce, .bytes tx.gasPrice, .bytes tx.gasLimit,
           .bytes tx.«to», .bytes tx.value, .bytes tx.data,
           .bytes v, .bytes r, .bytes s])) := by
  refine ⟨?_, ?_, ?_⟩
  · intro tx
    cases hv : tx.v <;> cases hr : tx.r <;> cases hs : tx.s <;>
      simp [FeeMarket1559Tx.isSigned, FeeMarket1559Tx.toValuesArray, hv, hr, hs]
  · intro tx
    cases hv : tx.v <;> cases hr : tx.r <;> cases hs : tx.s <;>
      simp [AccessList2930Tx.isSigned, AccessList2930Tx.toValuesArray, hv, hr, hs]
  · intro tx
    cases hv : tx.v <;> cases hr : tx.r <;> cases hs : tx.s <;>
      simp [LegacyTx.isSigned, LegacyTx.toValuesArray, hv, hr, hs]

/-- Witness for C7: a concrete signed FeeMarket transaction includes the
trailing signature entries, a concrete unsigned one excludes them. -/
theorem isSigned_controls_signature_suffix_witness :
    (⟨[1], [], [], [], [], [], [], [], [], some [2], some [3], some [4]⟩ :
        FeeMarket1559Tx).toValuesArray =
      [.bytes [1], .bytes [], .bytes [], .bytes [], .bytes [], .bytes [],
       .bytes [], .bytes [], .accessList [], .bytes [2], .bytes [3],
       .bytes [4]] ∧
    (⟨[1], [], [], [], [], [], [], [], [], none, none, none⟩ :
        FeeMarket1559Tx).toValuesArray =
      [.bytes [1], .bytes [], .bytes [], .bytes [], .bytes [], .bytes [],
       .bytes [], .bytes [], .accessList []] := by
  constructor
  · exact (isSigned_controls_signature_suffix.1
      ⟨[1], [], [], [], [], [], [], [], [], some [2], some [3], some [4]⟩).2.2
      [2] [3] [4] rfl rfl rfl
  · exact (isSigned_controls_signature_suffix.1
      ⟨[1], [], [], [], [], [], [], [], [], none, none, none⟩).2.1 rfl

/-- C8: a Legacy transaction's value array is exactly [nonce, gasPrice,
gasLimit, to, value, data], followed by [v, r, s] exactly when signed,
so its length is 6 or 9 and never any other value. -/
theorem legacy_values_array_layout (tx : LegacyTx) :
    (tx.isSigned = false →
      tx.toValuesArray =
        [.bytes tx.nonce, .bytes tx.gasPrice, .bytes tx.gasLimit,
         .bytes tx.«to», .bytes tx.value, .bytes tx.data]) ∧
    (∀ v r s, tx.v = some v → tx.r = some r → tx.s = some s →
      tx.toValuesArray =
        [.bytes tx.nonce, .bytes tx.gasPrice, .bytes tx.gasLimit,
         .bytes tx.«to», .bytes tx.value, .bytes tx.data,
         .bytes v, .bytes r, .bytes s]) ∧
    tx.toValuesArray.length = (if tx.isSigned then 9 else 6) ∧
    (tx.toValuesArray.length = 6 ∨ tx.toValuesArray.length = 9) := by
  cases hv : tx.v <;> cases hr : tx.r <;> cases hs : tx.s <;>
    simp [LegacyTx.isSigned, LegacyTx.toValuesArray, hv, hr, hs]

/-- Witness for C8: the layout at a concrete unsigned and a concrete
signed Legacy transaction. -/
theorem legacy_values_array_layout_witness :
    (⟨[1], [2], [3], [4], [5], [6], none, none, none⟩ :
        LegacyTx).toValuesArray =
      [.bytes [1], .bytes [2], .bytes [3], .bytes [4], .bytes [5],
       .bytes [6]] ∧
    (⟨[1], [2], [3], [4], [5], [6], some [7], some [8], some [9]⟩ :
        LegacyTx).toValuesArray =
      [.bytes [1], .bytes [2], .bytes [3], .bytes [4], .bytes [5],
       .bytes [6], .bytes [7], .bytes [8], .bytes [9]] := by
  constructor
  · exact (legacy_values_array_layout
      ⟨[1], [2], [3], [4], [5], [6], none, none, none⟩).1 rfl
  · exact (legacy_values_array_layout
      ⟨[1], [2], [3], [4], [5], [6], some [7], some [8], some [9]⟩).2.1
      [7] [8] [9] rfl rfl rfl

/-- C10: `isAccessList` is the exact boolean negation of
`isAccessListBuffer` on every input, so each input is classified as
exactly one of the two forms. -/
theorem classifiers_total_exact_negation (input : List AccessListAnyItem) :
    isAccessList input = !(isAccessListBuffer input) ∧
    (isAccessListBuffer input = true ∨ isAccessList input = true) ∧
    ¬(isAccessListBuffer input = true ∧ isAccessList input = true) := by
  refine ⟨rfl, ?_, ?_⟩
  · cases h : isAccessListBuffer input
    · right; simp [isAccessList, h]
    · left; rfl
  · rintro ⟨h₁, h₂⟩
    simp [isAccessList, h₁] at h₂

end Web3Tx
